import Mathlib

/-!
Shallow embedding of `pulsar-functions/instance/src/main/python/python_instance.py`:
the Python runtime for a single Pulsar function instance.  Python lists become
Lean lists, floats become rationals, machine state mutation becomes explicit
state passing, and the worker thread's loop becomes a recursive function over
the finite queue trace it consumes.
-/

/-- An exception record as stored by `Stats`: `(traceback text, ms since epoch)`. -/
abbrev ExcRecord := String × Nat

/-- The append-with-eviction step shared by `Stats.add_user_exception` and
`Stats.add_sys_exception`: `list.append(rec)` followed by
`if len(list) > 10: list.pop(0)`. -/
def appendEvict (ring : List ExcRecord) (rec : ExcRecord) : List ExcRecord :=
  if (ring ++ [rec]).length > 10 then (ring ++ [rec]).drop 1 else ring ++ [rec]

/-- `base64.urlsafe_b64encode`'s alphabet: standard base64 with `-` and `_`. -/
def b64UrlAlphabet : List Char :=
  "ABCDEFGHIJKLMNOPQRSTUVWXYZabcdefghijklmnopqrstuvwxyz0123456789-_".toList

/-- The alphabet character for a 6-bit group. -/
def b64Char (n : Nat) : Char := b64UrlAlphabet.getD n 'A'

/-- `base64.urlsafe_b64encode` on a byte list (RFC 4648 URL-safe, with padding). -/
def urlsafe_b64encode : List Nat → List Char
  | [] => []
  | [a] => [b64Char (a / 4), b64Char (a % 4 * 16), '=', '=']
  | [a, b] => [b64Char (a / 4), b64Char (a % 4 * 16 + b / 16), b64Char (b % 16 * 4), '=']
  | a :: b :: c :: rest =>
      b64Char (a / 4) :: b64Char (a % 4 * 16 + b / 16) :: b64Char (b % 16 * 4 + c / 64) ::
        b64Char (c % 64) :: urlsafe_b64encode rest

/-- `base64ify(bytes)`: in Python 3, raw bytes are URL-safe base64 encoded and
the result decoded to an ASCII string.  The message-id path always passes raw
bytes (`message_id().serialize()`), so the `str` re-encoding branch is identity
on that path. -/
def base64ify (input_bytes : List Nat) : String :=
  String.mk (urlsafe_b64encode input_bytes)

/-- The latency accumulator of the Prometheus `Summary`: `observe(d)` adds `d`
to the running sum and `1` to the count. -/
def observeLatency (acc : ℚ × ℚ) (d : ℚ) : ℚ × ℚ :=
  (acc.1 + d, acc.2 + 1)

/-- The average-latency expression used in both `get_metrics` and
`get_function_status`: `0.0 if count <= 0.0 else sum / count`. -/
def avgLatency (sum count : ℚ) : ℚ :=
  if count ≤ 0 then 0 else sum / count

theorem observeLatency_foldl (ds : List ℚ) (a b : ℚ) :
    ds.foldl observeLatency (a, b) = (a + ds.sum, b + ds.length) := by
  induction ds generalizing a b with
  | nil => simp
  | cons d ds ih =>
      simp only [List.foldl_cons, observeLatency, List.sum_cons, List.length_cons, ih,
        Prod.mk.injEq]
      constructor <;> push_cast <;> ring

theorem appendEvict_foldl (xs : List ExcRecord) :
    xs.foldl appendEvict [] = xs.drop (xs.length - 10) := by
  induction xs using List.reverseRecOn with
  | nil => simp
  | append_singleton ys y ih =>
      rw [List.foldl_append, List.foldl_cons, List.foldl_nil, ih]
      have hsplit : (ys ++ [y]).drop (ys.length - 10) = ys.drop (ys.length - 10) ++ [y] :=
        List.drop_append_of_le_length (by omega)
      by_cases h : 10 ≤ ys.length
      · have hlen : (ys.drop (ys.length - 10)).length = 10 := by
          rw [List.length_drop]; omega
        simp only [appendEvict]
        rw [if_pos (by rw [List.length_append, hlen]; simp)]
        have harith : (ys ++ [y]).length - 10 = ys.length - 10 + 1 := by
          simp; omega
        rw [harith, ← List.drop_drop, hsplit]
      · have h0 : ys.length - 10 = 0 := by omega
        rw [h0, List.drop_zero]
        have h1 : (ys ++ [y]).length - 10 = 0 := by simp; omega
        rw [h1, List.drop_zero]
        simp only [appendEvict]
        rw [if_neg (by simp; omega)]

/-- The processing-guarantee enum from `Function_pb2.ProcessingGuarantees`. -/
inductive ProcessingGuarantees
  | atleastOnce
  | atmostOnce
  | effectivelyOnce
deriving DecidableEq, BEq, Repr

/-- The slice of `function_details` that the pipeline reads: the guarantee,
the `autoAck` flag and the sink topic (a protobuf string, empty when unset). -/
structure FunctionDetails where
  processingGuarantees : ProcessingGuarantees
  autoAck : Bool
  sinkTopic : String
deriving DecidableEq, Repr

/-- `self.atmost_once` (line 134): the guarantee equals `ATMOST_ONCE`. -/
def atmost_once (fd : FunctionDetails) : Bool :=
  fd.processingGuarantees == ProcessingGuarantees.atmostOnce

/-- `self.atleast_once` (line 135): the guarantee equals `ATLEAST_ONCE`. -/
def atleast_once (fd : FunctionDetails) : Bool :=
  fd.processingGuarantees == ProcessingGuarantees.atleastOnce

/-- The test `sink.topic != None and len(sink.topic) > 0` guarding the
publish path and `setup_producer`. -/
def hasSinkTopic (fd : FunctionDetails) : Bool :=
  fd.sinkTopic.length > 0

/-- A transport message: its payload bytes (`data()`) and the serialized raw
bytes of its message id (`message_id().serialize()`). -/
structure Message where
  payload : List Nat
  messageIdBytes : List Nat
deriving DecidableEq, Repr

/-- The `InternalMessage` namedtuple put on the queue: the message and its
source topic.  The serde is modelled as functions passed where used, and the
originating consumer handle as the implicit target of acknowledge actions. -/
structure InternalMessage where
  message : Message
  topic : String
deriving DecidableEq, Repr

/-- `pulsar.Result` as seen by the publish-completion callback. -/
inductive PulsarResult
  | ok
  | error
deriving DecidableEq, BEq, Repr

/-- Observable effects of the pipeline on the transport: acknowledging the
originating message on its consumer, or handing bytes plus properties to the
producer via `send_async`. -/
inductive PipelineAction
  | acknowledge
  | sendAsync (payload : List Nat) (props : List (String × String))
deriving DecidableEq, Repr

/-- Whether an action is an acknowledgment. -/
def PipelineAction.isAck : PipelineAction → Bool
  | .acknowledge => true
  | _ => false

/-- Whether an action is a `send_async` publish. -/
def PipelineAction.isSend : PipelineAction → Bool
  | .sendAsync _ _ => true
  | _ => false

/-- `message_listener` (lines 312-316): builds the `InternalMessage`, enqueues
it, and then acknowledges at ingress exactly when both `atmost_once` and
`auto_ack` hold.  Returns the enqueued item and the ingress-side actions. -/
def message_listener (fd : FunctionDetails) (message : Message) (topic : String) :
    InternalMessage × List PipelineAction :=
  (⟨message, topic⟩, if atmost_once fd && fd.autoAck then [PipelineAction.acknowledge] else [])

/-- `done_producing` (lines 270-272): the publish-completion callback
acknowledges the original message exactly when the result is `Ok` and the
instance is in auto-ack at-least-once mode. -/
def done_producing (fd : FunctionDetails) (result : PulsarResult) : List PipelineAction :=
  if result == PulsarResult.ok && fd.autoAck && atleast_once fd then [PipelineAction.acknowledge]
  else []

/-- The provenance properties attached to every published output message
(line 286). -/
def outputProperties (msg : InternalMessage) : List (String × String) :=
  [("__pfn_input_topic__", msg.topic),
   ("__pfn_input_msg_id__", base64ify msg.message.messageIdBytes)]

/-- `process_result` (lines 274-289).  When the output is non-null and a sink
topic is configured, the output is serialized and, if the serializer produced
bytes, handed to `send_async` with the provenance properties; otherwise (null
output or no sink) the message is acknowledged immediately when auto-ack
at-least-once holds.  The output serde is the `serialize` argument. -/
def process_result {α : Type} (fd : FunctionDetails) (serialize : α → Option (List Nat))
    (output : Option α) (msg : InternalMessage) : List PipelineAction :=
  match output with
  | some out =>
      if hasSinkTopic fd then
        match serialize out with
        | some output_bytes => [PipelineAction.sendAsync output_bytes (outputProperties msg)]
        | none => []
      else if fd.autoAck && atleast_once fd then [PipelineAction.acknowledge] else []
  | none => if fd.autoAck && atleast_once fd then [PipelineAction.acknowledge] else []

/-- How the user-logic invocation for one message ended: it raised (so
`process_result` is never called for it), or it returned an output that may be
`None`. -/
inductive ExecutionOutcome (α : Type)
  | raises
  | returns (output : Option α)

/-- Total number of acknowledgments issued for one delivered message over its
whole lifecycle: the ingress acks from `message_listener`, plus — when user
logic returned — the acks of `process_result`, plus, for each `send_async` it
issued, the acks of the `done_producing` callback invoked with the publish
result. -/
def messageAckCount {α : Type} (fd : FunctionDetails) (serialize : α → Option (List Nat))
    (msg : InternalMessage) (outcome : ExecutionOutcome α)
    (publishResult : PulsarResult) : Nat :=
  ((message_listener fd msg.message msg.topic).2.countP PipelineAction.isAck) +
    match outcome with
    | .raises => 0
    | .returns output =>
        (process_result fd serialize output msg).countP PipelineAction.isAck +
          (process_result fd serialize output msg).countP PipelineAction.isSend *
            ((done_producing fd publishResult).countP PipelineAction.isAck)

/-- A Prometheus label tuple: `(tenant, namespace, name, instance_id)`. -/
abbrev MetricsLabels := String × String × String × String

/-- The values of one label tuple's series: the four counters and the latency
summary (sum and count). -/
structure CounterValues where
  totalProcessed : ℚ
  totalSuccessfullyProcessed : ℚ
  totalSysExceptions : ℚ
  totalUserExceptions : ℚ
  latencySum : ℚ
  latencyCount : ℚ
deriving DecidableEq, Repr

/-- All series zero, as after `reset`. -/
def CounterValues.zero : CounterValues := ⟨0, 0, 0, 0, 0, 0⟩

/-- The process-wide Prometheus registry, one `CounterValues` per label tuple. -/
abbrev MetricsRegistry := MetricsLabels → CounterValues

/-- Update the series of one label tuple, leaving every other tuple alone —
the semantics of `counter.labels(*metrics_labels).inc()` and friends. -/
def updateSeries (reg : MetricsRegistry) (labels : MetricsLabels)
    (f : CounterValues → CounterValues) : MetricsRegistry :=
  fun l => if l = labels then f (reg l) else reg l

/-- The instance-side mutable stats: the two exception rings and the
last-invocation timestamp of the `Stats` object. -/
structure StatsState where
  latest_user_exception : List ExcRecord
  latest_sys_exception : List ExcRecord
  last_invocation_time : ℚ
deriving DecidableEq, Repr

/-- `Stats.add_user_exception` (lines 97-100), exactly as written in the
source: it appends the record to `latest_sys_exception` (not to
`latest_user_exception`) and evicts the oldest entry beyond 10. -/
def add_user_exception (s : StatsState) (exc : String) (now_ms : Nat) : StatsState :=
  { s with latest_sys_exception := appendEvict s.latest_sys_exception (exc, now_ms) }

/-- `Stats.add_sys_exception` (lines 102-105): appends the record to
`latest_sys_exception` and evicts the oldest entry beyond 10. -/
def add_sys_exception (s : StatsState) (exc : String) (now_ms : Nat) : StatsState :=
  { s with latest_sys_exception := appendEvict s.latest_sys_exception (exc, now_ms) }

/-- The state an instance reads and writes on the stats path: the shared
registry, this instance's label tuple, its `Stats` object and its id. -/
structure InstanceState where
  registry : MetricsRegistry
  metrics_labels : MetricsLabels
  stats : StatsState
  instance_id : String

/-- `Stats.reset` (lines 107-116): empties both exception rings, zeroes all
six series of the given label tuple only, and clears the last-invocation
timestamp. -/
def statsReset (st : InstanceState) (labels : MetricsLabels) : InstanceState :=
  { st with
    stats := ⟨[], [], 0⟩
    registry := updateSeries st.registry labels (fun _ => CounterValues.zero) }

/-- What one dequeued work item does when the worker handles it: user logic
completes normally (with its start time and measured duration), user logic
raises (caught in the inner `except`), or something else in the loop body
raises (caught in the outer `except`). -/
inductive ItemOutcome
  | completes (start_ms duration_ms : ℚ)
  | userRaises (start_ms : ℚ) (exc : String) (now_ms : Nat)
  | sysFails (exc : String) (now_ms : Nat)

/-- The body of one iteration of `actual_execution` (lines 227-268) as it acts
on the stats state, given how the item's processing turned out: on completion
the latency is observed and processed/success counters bumped; on a user
exception the user-exception counter is bumped and `add_user_exception`
called; on a system exception the system-exception counter is bumped and
`add_sys_exception` called.  The loop never stops on either exception. -/
def workerStep (st : InstanceState) (o : ItemOutcome) : InstanceState :=
  match o with
  | .completes start_ms duration_ms =>
      { st with
        stats := { st.stats with last_invocation_time := start_ms }
        registry := updateSeries st.registry st.metrics_labels fun c =>
          { c with
            latencySum := c.latencySum + duration_ms
            latencyCount := c.latencyCount + 1
            totalProcessed := c.totalProcessed + 1
            totalSuccessfullyProcessed := c.totalSuccessfullyProcessed + 1 } }
  | .userRaises start_ms exc now_ms =>
      { st with
        stats := add_user_exception { st.stats with last_invocation_time := start_ms } exc now_ms
        registry := updateSeries st.registry st.metrics_labels fun c =>
          { c with totalUserExceptions := c.totalUserExceptions + 1 } }
  | .sysFails exc now_ms =>
      { st with
        stats := add_sys_exception st.stats exc now_ms
        registry := updateSeries st.registry st.metrics_labels fun c =>
          { c with totalSysExceptions := c.totalSysExceptions + 1 } }

/-- An entry of the internal queue: a work item (tagged with how its
processing will turn out) or the `InternalQuitMessage` sentinel that `join`
enqueues. -/
inductive QueueEntry
  | workItem (o : ItemOutcome)
  | internalQuitMessage

/-- `actual_execution` (lines 223-268) over the finite queue trace the worker
consumes: it handles work items one after another — exceptions only update
stats, they never leave the loop — and exits the loop at the first
`InternalQuitMessage`.  Returns the final stats state and the number of
processing attempts made before exiting.  (A live worker blocks on an empty
queue; the embedding only considers traces that contain the sentinel, where
the nil case is unreachable.) -/
def actual_execution (st : InstanceState) : List QueueEntry → InstanceState × Nat
  | [] => (st, 0)
  | .internalQuitMessage :: _ => (st, 0)
  | .workItem o :: rest =>
      let r := actual_execution (workerStep st o) rest
      (r.1, r.2 + 1)

/-- `join` (lines 370-372): enqueue the sentinel after the pending items and
wait for the worker to exit; the state it observes on return is the worker's
state after every enqueued item has been attempted. -/
def joinResult (st : InstanceState) (pending : List QueueEntry) : InstanceState × Nat :=
  actual_execution st (pending ++ [QueueEntry.internalQuitMessage])

/-- The snapshot built by `get_metrics` (lines 328-340) from this instance's
label tuple (the user metrics merged from `contextimpl` are outside this
repository). -/
structure MetricsSnapshot where
  totalProcessed : ℚ
  totalSuccessfullyProcessed : ℚ
  totalSystemExceptions : ℚ
  totalUserExceptions : ℚ
  avgLatencyMs : ℚ
deriving DecidableEq, Repr

/-- `get_metrics` (lines 328-340): reads this instance's series and reports
the average latency as `0.0` when the count is not positive, else sum/count. -/
def get_metrics (st : InstanceState) : MetricsSnapshot :=
  let c := st.registry st.metrics_labels
  ⟨c.totalProcessed, c.totalSuccessfullyProcessed, c.totalSysExceptions,
    c.totalUserExceptions, avgLatency c.latencySum c.latencyCount⟩

/-- `reset_metrics` (lines 324-326): `stats.reset(metrics_labels)` (the
`contextimpl.reset_metrics` call is outside this repository). -/
def reset_metrics (st : InstanceState) : InstanceState :=
  statsReset st st.metrics_labels

/-- `get_and_reset_metrics` (lines 318-322): take the snapshot first, then
reset; the snapshot is returned. -/
def get_and_reset_metrics (st : InstanceState) : MetricsSnapshot × InstanceState :=
  (get_metrics st, reset_metrics st)

/-- The `FunctionStatus` protobuf fields filled by `get_function_status`. -/
structure FunctionStatus where
  running : Bool
  numProcessed : ℤ
  numSuccessfullyProcessed : ℤ
  numUserExceptions : ℤ
  numSystemExceptions : ℤ
  latestUserExceptions : List ExcRecord
  latestSystemExceptions : List ExcRecord
  averageLatency : ℚ
  lastInvocationTime : ℤ
  instanceId : String
deriving DecidableEq, Repr

/-- `get_function_status` (lines 348-368): the counters of this instance's
label tuple (truncated by `long()`), the records of `latest_user_exception`
copied into `latestUserExceptions` and those of `latest_sys_exception` into
`latestSystemExceptions`, and the same zero-guarded average latency. -/
def get_function_status (st : InstanceState) : FunctionStatus :=
  let c := st.registry st.metrics_labels
  { running := true
    numProcessed := ⌊c.totalProcessed⌋
    numSuccessfullyProcessed := ⌊c.totalSuccessfullyProcessed⌋
    numUserExceptions := ⌊c.totalUserExceptions⌋
    numSystemExceptions := ⌊c.totalSysExceptions⌋
    latestUserExceptions := st.stats.latest_user_exception
    latestSystemExceptions := st.stats.latest_sys_exception
    averageLatency := avgLatency c.latencySum c.latencyCount
    lastInvocationTime := ⌊st.stats.last_invocation_time⌋
    instanceId := st.instance_id }

/-- The liveness state read by the watchdog: the last heartbeat timestamp and
the expected heartbeat interval (both in seconds). -/
structure HealthState where
  last_health_check_ts : ℚ
  expected_healthcheck_interval : ℚ
deriving DecidableEq, Repr

/-- `health_check` (lines 145-149): records the current time as the last
heartbeat and returns a success result. -/
def health_check (s : HealthState) (now : ℚ) : HealthState × Bool :=
  ({ s with last_health_check_ts := now }, true)

/-- What one firing of the watchdog timer does to the process. -/
inductive TimerOutcome
  | killProcess
  | reschedule
deriving DecidableEq, Repr

/-- `process_spawner_health_check_timer` (lines 151-157): if the time since
the last heartbeat exceeds three times the expected interval the process is
killed with SIGKILL; otherwise a new timer is started for the next firing. -/
def process_spawner_health_check_timer (s : HealthState) (now : ℚ) : TimerOutcome :=
  if now - s.last_health_check_ts > s.expected_healthcheck_interval * 3 then
    TimerOutcome.killProcess
  else
    TimerOutcome.reschedule

/-- A label tuple used in concrete scenarios. -/
def sampleLabels : MetricsLabels := ("t", "ns", "fn", "0")

/-- A fresh instance state: zero registry, empty rings. -/
def sampleState : InstanceState :=
  ⟨fun _ => CounterValues.zero, sampleLabels, ⟨[], [], 0⟩, "0"⟩

/-- An instance state carrying nonzero counters and nonempty rings, with a
distinct series at every other label tuple. -/
def busyState : InstanceState :=
  ⟨fun l => if l = sampleLabels then ⟨3, 2, 1, 1, 10, 2⟩ else ⟨7, 7, 7, 7, 7, 7⟩,
   sampleLabels, ⟨[("u", 1)], [("s", 2)], 42⟩, "0"⟩

/-- An at-most-once configuration with auto-ack disabled. -/
def atMostOnceNoAck : FunctionDetails :=
  ⟨ProcessingGuarantees.atmostOnce, false, ""⟩

/-- An at-most-once configuration with auto-ack enabled. -/
def atMostOnceAutoAck : FunctionDetails :=
  ⟨ProcessingGuarantees.atmostOnce, true, ""⟩

/-- An at-least-once auto-ack configuration with a sink topic. -/
def atLeastOnceSink : FunctionDetails :=
  ⟨ProcessingGuarantees.atleastOnce, true, "out"⟩

/-- A concrete delivered message. -/
def sampleMsg : InternalMessage := ⟨⟨[104, 105], [1, 2, 3]⟩, "t1"⟩

/-- Folding the effect of the registry update of one series through the fields
read back at the same tuple. -/
theorem updateSeries_self (reg : MetricsRegistry) (labels : MetricsLabels)
    (f : CounterValues → CounterValues) : updateSeries reg labels f labels = f (reg labels) := by
  simp [updateSeries]

/-- C5: on each watchdog firing, the process is killed exactly when the time
since the last recorded health check exceeds 3 times the expected heartbeat
interval, and otherwise the timer reschedules; a health check recorded at time
h keeps any firing at time t with t - h within the threshold alive. -/
theorem C5_watchdog_kills_iff_heartbeat_stale (s : HealthState) (now : ℚ) :
    (process_spawner_health_check_timer s now = TimerOutcome.killProcess ↔
      now - s.last_health_check_ts > s.expected_healthcheck_interval * 3) ∧
    (∀ h t : ℚ, t - h ≤ s.expected_healthcheck_interval * 3 →
      process_spawner_health_check_timer (health_check s h).1 t = TimerOutcome.reschedule) := by
  constructor
  · unfold process_spawner_health_check_timer
    split
    · simpa using ‹_›
    · simp_all
  · intro h t ht
    unfold process_spawner_health_check_timer health_check
    simp only
    rw [if_neg (not_lt.mpr ht)]

/-- Witness for C5: with a 5-second expected interval, a heartbeat at t=100
and a firing at t=114 (14 ≤ 15 elapsed) reschedules and the process
survives. -/
theorem C5_witness :
    process_spawner_health_check_timer (health_check ⟨0, 5⟩ 100).1 114 =
      TimerOutcome.reschedule :=
  (C5_watchdog_kills_iff_heartbeat_stale ⟨0, 5⟩ 0).2 100 114 (by norm_num)

/-- C8: appending more than 10 exception records to a ring that started empty
leaves exactly the 10 most recently appended records, in order, the oldest
evicted first; and after every prefix of the appends the ring holds at most
10 records. -/
theorem C8_ring_keeps_last_ten (xs : List ExcRecord) (hk : 10 < xs.length) :
    xs.foldl appendEvict [] = xs.drop (xs.length - 10) ∧
    (xs.foldl appendEvict []).length = 10 ∧
    (∀ ys : List ExcRecord, ys <+: xs → (ys.foldl appendEvict []).length ≤ 10) := by
  refine ⟨appendEvict_foldl xs, ?_, ?_⟩
  · rw [appendEvict_foldl, List.length_drop]
    omega
  · intro ys _
    rw [appendEvict_foldl, List.length_drop]
    omega

/-- Witness for C8: 11 appends retain exactly the last 10 records. -/
theorem C8_witness :
    10 < (((List.range 11).map fun i => (toString i, i)) : List ExcRecord).length ∧
    ((((List.range 11).map fun i => (toString i, i)) : List ExcRecord).foldl appendEvict [] =
        (((List.range 11).map fun i => (toString i, i)) : List ExcRecord).drop
          ((((List.range 11).map fun i => (toString i, i)) : List ExcRecord).length - 10) ∧
      ((((List.range 11).map fun i => (toString i, i)) : List ExcRecord).foldl
          appendEvict []).length = 10 ∧
      (∀ ys : List ExcRecord,
        ys <+: (((List.range 11).map fun i => (toString i, i)) : List ExcRecord) →
          (ys.foldl appendEvict []).length ≤ 10)) :=
  ⟨by decide, C8_ring_keeps_last_ten _ (by decide)⟩

/-- C4: for any starting state, running the worker on N work items followed by
the quit sentinel (and anything after it) attempts exactly those N items — an
item ending in a caught user or system exception only updates stats and never
stops the loop — and the state `join` observes on return is the fold of all N
attempts; `joinResult`, which appends the sentinel after the pending items,
returns that same state and count. -/
theorem C4_worker_drains_then_quits (st : InstanceState) (items : List ItemOutcome)
    (rest : List QueueEntry) :
    actual_execution st
        (items.map QueueEntry.workItem ++ QueueEntry.internalQuitMessage :: rest) =
      (items.foldl workerStep st, items.length) ∧
    joinResult st (items.map QueueEntry.workItem) =
      (items.foldl workerStep st, items.length) := by
  have hmain : ∀ (zs : List QueueEntry) (s : InstanceState) (os : List ItemOutcome),
      actual_execution s (os.map QueueEntry.workItem ++ QueueEntry.internalQuitMessage :: zs) =
        (os.foldl workerStep s, os.length) := by
    intro zs s os
    induction os generalizing s with
    | nil => simp [actual_execution]
    | cons o os ih => simp [actual_execution, ih]
  exact ⟨hmain rest st items, by simpa [joinResult] using hmain [] st items⟩

/-- C3, evaluated at the failing input: after a single user-logic exception on
a fresh instance, the status report has an empty list of latest user
exceptions, and the record instead shows up among the latest system
exceptions — `add_user_exception` appends to `latest_sys_exception`. -/
theorem C3_user_exception_misfiled :
    (get_function_status (workerStep sampleState (ItemOutcome.userRaises 0 "boom" 5))).latestUserExceptions = [] ∧
    (get_function_status (workerStep sampleState (ItemOutcome.userRaises 0 "boom" 5))).latestSystemExceptions = [("boom", 5)] ∧
    (get_function_status (workerStep sampleState (ItemOutcome.userRaises 0 "boom" 5))).numUserExceptions = 1 := by
  refine ⟨rfl, rfl, ?_⟩
  simp [get_function_status, workerStep, sampleState, updateSeries, CounterValues.zero]

/-- C1 as stated is false: in at-most-once mode with auto-ack disabled, a
delivered message is never acknowledged at all — the ingress acknowledgment is
guarded by `atmost_once and auto_ack`, not by the guarantee alone. -/
theorem C1_counterexample :
    ¬ ∀ (fd : FunctionDetails) (serialize : Unit → Option (List Nat))
        (msg : InternalMessage) (outcome : ExecutionOutcome Unit) (r : PulsarResult),
        fd.processingGuarantees = ProcessingGuarantees.atmostOnce →
        messageAckCount fd serialize msg outcome r = 1 := by
  intro hclaim
  exact absurd
    (hclaim atMostOnceNoAck (fun _ => none) sampleMsg ExecutionOutcome.raises PulsarResult.ok rfl)
    (by decide)

/-- C1 (amended): in at-most-once mode with auto-ack enabled, every delivered
message is acknowledged exactly once over its whole lifecycle — at ingress,
right after the work item is enqueued — regardless of the processing outcome,
including when user logic raises and for any publish result. -/
theorem C1_atmost_once_acks_once_at_ingress {α : Type} (fd : FunctionDetails)
    (serialize : α → Option (List Nat)) (msg : InternalMessage)
    (outcome : ExecutionOutcome α) (r : PulsarResult)
    (hg : fd.processingGuarantees = ProcessingGuarantees.atmostOnce)
    (ha : fd.autoAck = true) :
    messageAckCount fd serialize msg outcome r = 1 := by
  have hmost : atmost_once fd = true := by simp only [atmost_once, hg]; rfl
  have hleast : atleast_once fd = false := by simp only [atleast_once, hg]; rfl
  unfold messageAckCount message_listener
  simp only [hmost, ha, Bool.and_self, if_true]
  cases outcome with
  | raises =>
      simp [List.countP_cons, List.countP_nil, PipelineAction.isAck]
  | returns output =>
      cases output with
      | none =>
          simp [process_result, hleast, List.countP_cons, List.countP_nil,
            PipelineAction.isAck]
      | some out =>
          by_cases hs : hasSinkTopic fd = true
          · cases hser : serialize out with
            | none =>
                simp [process_result, hs, hser, List.countP_cons, List.countP_nil,
                  PipelineAction.isAck]
            | some b =>
                simp [process_result, done_producing, hs, hser, hleast,
                  List.countP_cons, List.countP_nil, PipelineAction.isAck,
                  PipelineAction.isSend]
          · simp only [Bool.not_eq_true] at hs
            simp [process_result, hs, hleast, List.countP_cons, List.countP_nil,
              PipelineAction.isAck]

/-- Witness for C1 (amended): at-most-once with auto-ack, user logic raising:
exactly one acknowledgment. -/
theorem C1_witness :
    atMostOnceAutoAck.processingGuarantees = ProcessingGuarantees.atmostOnce ∧
    atMostOnceAutoAck.autoAck = true ∧
    messageAckCount atMostOnceAutoAck (fun _ : Unit => none) sampleMsg
      ExecutionOutcome.raises PulsarResult.ok = 1 :=
  ⟨rfl, rfl, C1_atmost_once_acks_once_at_ingress _ _ _ _ _ rfl rfl⟩

/-- C2: in at-least-once auto-ack mode with a sink topic, when the output was
serialized and handed to the producer, the originating message is acknowledged
exactly when the publish-completion callback reports success; a failed publish
leaves the message with zero acknowledgments. -/
theorem C2_atleast_once_ack_iff_publish_ok {α : Type} (fd : FunctionDetails)
    (serialize : α → Option (List Nat)) (msg : InternalMessage) (out : α)
    (bytes : List Nat) (r : PulsarResult)
    (ha : fd.autoAck = true) (hg : fd.processingGuarantees = ProcessingGuarantees.atleastOnce)
    (hs : hasSinkTopic fd = true) (hser : serialize out = some bytes) :
    messageAckCount fd serialize msg (ExecutionOutcome.returns (some out)) r =
      if r = PulsarResult.ok then 1 else 0 := by
  have hmost : atmost_once fd = false := by simp only [atmost_once, hg]; rfl
  have hleast : atleast_once fd = true := by simp only [atleast_once, hg]; rfl
  unfold messageAckCount message_listener
  simp only [hmost, Bool.false_and, if_false]
  cases r with
  | ok =>
      simp [process_result, done_producing, hs, hser, ha, hleast,
        List.countP_cons, List.countP_nil, PipelineAction.isAck, PipelineAction.isSend]
      decide
  | error =>
      simp [process_result, done_producing, hs, hser, ha, hleast,
        List.countP_cons, List.countP_nil, PipelineAction.isAck, PipelineAction.isSend]
      decide

/-- Witness for C2: with a sink and a serialized output, a failed publish
yields zero acknowledgments. -/
theorem C2_witness :
    atLeastOnceSink.autoAck = true ∧
    atLeastOnceSink.processingGuarantees = ProcessingGuarantees.atleastOnce ∧
    hasSinkTopic atLeastOnceSink = true ∧
    messageAckCount atLeastOnceSink (fun _ : Unit => some [1]) sampleMsg
      (ExecutionOutcome.returns (some ())) PulsarResult.error = 0 := by
  refine ⟨rfl, rfl, rfl, ?_⟩
  have h := C2_atleast_once_ack_iff_publish_ok atLeastOnceSink (fun _ : Unit => some [1])
    sampleMsg () [1] PulsarResult.error rfl rfl rfl rfl
  simpa using h

/-- C6: when user logic returns a non-null output, a sink topic is configured,
and the output serializer returns None, `process_result` issues no action at
all — nothing is published and the message is not acknowledged — even in
auto-ack at-least-once mode, where the whole lifecycle then carries zero
acknowledgments. -/
theorem C6_serializer_none_means_no_action {α : Type} (fd : FunctionDetails)
    (serialize : α → Option (List Nat)) (out : α) (msg : InternalMessage) (r : PulsarResult)
    (hg : fd.processingGuarantees = ProcessingGuarantees.atleastOnce)
    (ha : fd.autoAck = true) (hs : hasSinkTopic fd = true) (hser : serialize out = none) :
    process_result fd serialize (some out) msg = [] ∧
    messageAckCount fd serialize msg (ExecutionOutcome.returns (some out)) r = 0 := by
  have hmost : atmost_once fd = false := by simp only [atmost_once, hg]; rfl
  refine ⟨by simp [process_result, hs, hser], ?_⟩
  unfold messageAckCount message_listener
  simp [process_result, hs, hser, hmost]

/-- Witness for C6: a serializer that drops the output leaves an at-least-once
auto-ack message un-acknowledged with no publish. -/
theorem C6_witness :
    atLeastOnceSink.processingGuarantees = ProcessingGuarantees.atleastOnce ∧
    atLeastOnceSink.autoAck = true ∧
    hasSinkTopic atLeastOnceSink = true ∧
    (fun _ : Unit => (none : Option (List Nat))) () = none ∧
    (process_result atLeastOnceSink (fun _ : Unit => none) (some ()) sampleMsg = [] ∧
      messageAckCount atLeastOnceSink (fun _ : Unit => none) sampleMsg
        (ExecutionOutcome.returns (some ())) PulsarResult.ok = 0) :=
  ⟨rfl, rfl, rfl, rfl,
    C6_serializer_none_means_no_action atLeastOnceSink _ () sampleMsg PulsarResult.ok
      rfl rfl rfl rfl⟩

/-- C7: `get_and_reset_metrics` snapshots first and resets second: the
returned snapshot is the pre-reset `get_metrics` reading, the status report
taken after it shows every system counter at zero, empty exception rings and
zero average latency for this instance, and the series of any other label
tuple is untouched. -/
theorem C7_get_and_reset_metrics_resets (st : InstanceState) (l : MetricsLabels)
    (hl : l ≠ st.metrics_labels) :
    (get_and_reset_metrics st).1 = get_metrics st ∧
    get_function_status (get_and_reset_metrics st).2 =
      ⟨true, 0, 0, 0, 0, [], [], 0, 0, st.instance_id⟩ ∧
    (get_and_reset_metrics st).2.registry l = st.registry l := by
  refine ⟨rfl, ?_, ?_⟩
  · simp [get_and_reset_metrics, reset_metrics, statsReset, get_function_status,
      updateSeries, CounterValues.zero, avgLatency]
  · simp [get_and_reset_metrics, reset_metrics, statsReset, updateSeries, hl]

/-- Witness for C7: resetting a busy instance zeroes its own series and status
while the series of a different label tuple keeps its values. -/
theorem C7_witness :
    ("x", "y", "z", "9") ≠ busyState.metrics_labels ∧
    ((get_and_reset_metrics busyState).1 = get_metrics busyState ∧
      get_function_status (get_and_reset_metrics busyState).2 =
        ⟨true, 0, 0, 0, 0, [], [], 0, 0, busyState.instance_id⟩ ∧
      (get_and_reset_metrics busyState).2.registry ("x", "y", "z", "9") =
        busyState.registry ("x", "y", "z", "9")) :=
  ⟨by decide, C7_get_and_reset_metrics_resets busyState ("x", "y", "z", "9") (by decide)⟩

/-- A run of N successful completions with the given durations, as the worker
performs it. -/
def observeCompletions (st : InstanceState) (ds : List ℚ) : InstanceState :=
  ds.foldl (fun s d => workerStep s (ItemOutcome.completes 0 d)) st

/-- Folding completions adds each duration to the latency sum and one to the
latency count of this instance's series, and keeps the label tuple. -/
theorem observeCompletions_latency (ds : List ℚ) (st : InstanceState) :
    (observeCompletions st ds).metrics_labels = st.metrics_labels ∧
    ((observeCompletions st ds).registry st.metrics_labels).latencySum =
      (st.registry st.metrics_labels).latencySum + ds.sum ∧
    ((observeCompletions st ds).registry st.metrics_labels).latencyCount =
      (st.registry st.metrics_labels).latencyCount + ds.length := by
  induction ds generalizing st with
  | nil => simp [observeCompletions]
  | cons d ds ih =>
      obtain ⟨h1, h2, h3⟩ := ih (workerStep st (ItemOutcome.completes 0 d))
      have hstep : observeCompletions st (d :: ds) =
          observeCompletions (workerStep st (ItemOutcome.completes 0 d)) ds := rfl
      have hlab : (workerStep st (ItemOutcome.completes 0 d)).metrics_labels =
          st.metrics_labels := rfl
      refine ⟨by rw [hstep, h1, hlab], ?_, ?_⟩
      · rw [hlab] at h2
        rw [hstep, h2]
        simp [workerStep, updateSeries]
        ring
      · rw [hlab] at h3
        rw [hstep, h3]
        simp [workerStep, updateSeries]
        ring

/-- C9: starting from a zeroed latency series, observing durations d1..dn with
n > 0 makes both the status report and the metrics snapshot report the average
(d1+...+dn)/n, and with no observed duration both report 0 instead of
dividing by the zero count. -/
theorem C9_average_latency (ds : List ℚ) (st : InstanceState)
    (hsum : (st.registry st.metrics_labels).latencySum = 0)
    (hcount : (st.registry st.metrics_labels).latencyCount = 0) :
    (ds ≠ [] →
      (get_function_status (observeCompletions st ds)).averageLatency = ds.sum / ds.length ∧
      (get_metrics (observeCompletions st ds)).avgLatencyMs = ds.sum / ds.length) ∧
    (get_function_status st).averageLatency = 0 ∧
    (get_metrics st).avgLatencyMs = 0 := by
  obtain ⟨hlab, hsum2, hcount2⟩ := observeCompletions_latency ds st
  rw [hsum, zero_add] at hsum2
  rw [hcount, zero_add] at hcount2
  refine ⟨fun hne => ?_, ?_, ?_⟩
  · have hlen : (0 : ℚ) < ds.length := by
      exact_mod_cast List.length_pos.mpr hne
    have havg : avgLatency
        ((observeCompletions st ds).registry (observeCompletions st ds).metrics_labels).latencySum
        ((observeCompletions st ds).registry (observeCompletions st ds).metrics_labels).latencyCount
        = ds.sum / ds.length := by
      rw [hlab, hsum2, hcount2, avgLatency, if_neg (not_le.mpr hlen)]
    exact ⟨havg, havg⟩
  · simp [get_function_status, avgLatency, hsum, hcount]
  · simp [get_metrics, avgLatency, hsum, hcount]

/-- Witness for C9: durations 1 and 3 yield average 2 in both reports. -/
theorem C9_witness :
    (sampleState.registry sampleState.metrics_labels).latencySum = 0 ∧
    (sampleState.registry sampleState.metrics_labels).latencyCount = 0 ∧
    (get_function_status (observeCompletions sampleState [1, 3])).averageLatency = 2 ∧
    (get_metrics (observeCompletions sampleState [1, 3])).avgLatencyMs = 2 := by
  have h := (C9_average_latency [1, 3] sampleState rfl rfl).1 (by simp)
  refine ⟨rfl, rfl, ?_, ?_⟩
  · rw [h.1]; norm_num
  · rw [h.2]; norm_num

/-- C10: whenever `process_result` hands an output to the producer, the
published message carries exactly two properties: `__pfn_input_topic__` with
the source topic, and `__pfn_input_msg_id__` with the URL-safe base64 encoding
of the raw source message-id bytes. -/
theorem C10_provenance_properties {α : Type} (fd : FunctionDetails)
    (serialize : α → Option (List Nat)) (out : α) (bytes : List Nat) (msg : InternalMessage)
    (hs : hasSinkTopic fd = true) (hser : serialize out = some bytes) :
    process_result fd serialize (some out) msg =
      [PipelineAction.sendAsync bytes
        [("__pfn_input_topic__", msg.topic),
         ("__pfn_input_msg_id__", base64ify msg.message.messageIdBytes)]] := by
  simp [process_result, hs, hser, outputProperties]

/-- Witness for C10: message id bytes `[1, 2, 3]` are published with the
property value "AQID", their URL-safe base64 encoding. -/
theorem C10_witness :
    hasSinkTopic atLeastOnceSink = true ∧
    (fun _ : Unit => some [9]) () = some [9] ∧
    process_result atLeastOnceSink (fun _ : Unit => some [9]) (some ()) sampleMsg =
      [PipelineAction.sendAsync [9]
        [("__pfn_input_topic__", "t1"), ("__pfn_input_msg_id__", "AQID")]] := by
  refine ⟨rfl, rfl, ?_⟩
  have h := C10_provenance_properties atLeastOnceSink (fun _ : Unit => some [9]) () [9]
    sampleMsg rfl rfl
  rw [h]
  decide
